import Mathlib

/-!
# Verification of the redox asynchronous Redis client core

Shallow embedding of the connection lifecycle state machine and the
command dispatch engine of the redox client (files `src/client.cpp`,
`src/format.cpp`, the `client.hpp` / `format.hpp` headers, and the
`formated_string` translation unit).

The `Command<ReplyT>` template internals (`command.hpp`: `processReply`,
`invoke`, `wait`, the reply-status enum) are not part of the provided
sources; where a claim needs them they are modelled from the spec and
each such definition is marked `Modelled from the spec:` in its doc
comment.  Everything else is translated directly from the C++ sources.

`double`-typed scheduling fields (`after_`, `repeat_`) are embedded as
`Rat`; the code only ever compares them to the exact constant `0`
(`client.hpp`, `processQueuedCommand`), which `Rat` models faithfully.
-/

/-- Modelled from the spec: reply-status enum of `command.hpp` (not under
`src/`); constants `NO_REPLY` and `SEND_ERROR` are referenced by
`client.hpp`, the full list is spec section 3 ("Reply status (enum):
NoReply, Ok, ErrorReply, SendError, TimeoutError, WrongType, Canceled"). -/
inductive CommandStatus where
  | noReply
  | ok
  | errorReply
  | sendError
  | timeoutError
  | wrongType
  | canceled
deriving DecidableEq

/-- The command payload: `client.hpp` stores `cmd_` as a `std::any` holding
either a `std::vector<std::string>` or a `format_command`; `submitToServer`
dispatches on the two alternatives with `std::any_cast`, so the payload is a
two-variant sum (spec section 9 design note: "model as a tagged union/sum
type with two variants").  The `formatted` variant carries the shared
buffer's `target` pointer (abstracted as a number) and `len`. -/
inductive Payload where
  | args (cmd : List String)
  | formatted (target : Nat) (len : Int)
deriving DecidableEq

/-- A `Command<ReplyT>` object, reply-type erased.  Fields `status`
(`reply_status_`), `pending` (`pending_`), `hasCallback` (`callback_`
non-null), `freeMemory` (`free_memory_`), `payload` (`cmd_`),
`repeatSecs`/`afterSecs` (`repeat_`/`after_`) mirror the members used by
`client.hpp`.  Two ghost instrumentation fields record observable events:
`callbackCount` counts invocations of the user callback and
`resolveCount` counts transitions of `status` out of `NoReply`. -/
structure Cmd where
  hasCallback : Bool
  callbackCount : Nat
  status : CommandStatus
  resolveCount : Nat
  pending : Nat
  freeMemory : Bool
  payload : Payload
  repeatSecs : Rat
  afterSecs : Rat
deriving DecidableEq

/-- Every write of `reply_status_` in the embedding goes through this
helper so that the ghost `resolveCount` counts exactly the status
transitions that leave `NoReply`. -/
def setStatus (c : Cmd) (st : CommandStatus) : Cmd :=
  { c with
    status := st
    resolveCount :=
      c.resolveCount + (if c.status = .noReply ∧ st ≠ .noReply then 1 else 0) }

/-- Modelled from the spec: `Command<ReplyT>::invoke()` of `command.hpp`
(not under `src/`): "invokes the user callback (if any) exactly once"
(spec section 4.2, `onReply`).  The ghost `callbackCount` records the
invocation. -/
def invoke (c : Cmd) : Cmd :=
  if c.hasCallback then { c with callbackCount := c.callbackCount + 1 } else c

/-- A decoded reply from the protocol layer, as classified by the spec's
error taxonomy (section 7): a well-typed success, an application-level
error reply, or a reply that does not match the requested type. -/
inductive Reply where
  | okVal
  | errVal
  | badType
deriving DecidableEq

/-- Modelled from the spec: the reply-decoding step of
`Command<ReplyT>::processReply` (`command.hpp`, not under `src/`).
Spec section 4.2 `onReply`: "Decodes the raw reply into T (or records an
error/parse-failure status)"; a null reply (no reply will ever arrive,
delivered during shutdown) resolves to `SendError` per spec section 5
("stop() ... resolves all queued and in-flight commands to SendError"). -/
def decodeReply : Option Reply → CommandStatus
  | none => .sendError
  | some .okVal => .ok
  | some .errVal => .errorReply
  | some .badType => .wrongType

/-- Modelled from the spec: `Command<ReplyT>::processReply`
(`command.hpp`, not under `src/`).  Spec section 4.2 `onReply`: "sets the
Command's status exactly once, invokes the user callback (if any) exactly
once" — so the status is written only if still `NoReply` (the
driver-exiting path of `submitToServer` pre-sets `SEND_ERROR` before
calling `processReply(nullptr)`), and the callback is then invoked. -/
def processReply (r : Option Reply) (c : Cmd) : Cmd :=
  invoke (if c.status = .noReply then setStatus c (decodeReply r) else c)

/-- Environment of one `submitToServer` call: the `to_exit_` flag of the
driver and the success of the two hiredis transmission entry points
(`redisAsyncCommandArgv` resp. `redisAsyncFormattedCommand` returning
`REDIS_OK`). -/
structure SendCtx where
  toExit : Bool
  argvSendOk : Bool
  fmtSendOk : Bool
deriving DecidableEq

/-- `Redox::submitToServer<ReplyT>` (`client.hpp` lines 602-645),
translated branch by branch.  Returns the updated command, the C++
`bool` return value, and whether the command was registered with the
protocol layer (so that a reply callback will later fire for it).
Quirk preserved from the source: the formatted-payload success path
falls through to the final `return false`. -/
def submitToServer (ctx : SendCtx) (c : Cmd) : Cmd × Bool × Bool :=
  let c := { c with pending := c.pending + 1 }
  if ctx.toExit then
    (processReply none (setStatus c .sendError), false, false)
  else
    match c.payload with
    | .args _ =>
      if ctx.argvSendOk then (c, true, true)
      else (invoke (setStatus c .sendError), false, false)
    | .formatted _ _ =>
      if ctx.fmtSendOk then (c, false, true)
      else (invoke (setStatus c .sendError), false, false)

/-- One complete send attempt: `submitToServer`, and — when the command
was accepted by the protocol layer — the reply delivery through
`Redox::commandCallback` (`client.hpp` lines 592-600), which casts the
opaque context back and calls `processReply`.  The collaborator contract
(spec section 4.3 (b)) guarantees the reply callback fires exactly once
per accepted send, with either a decoded reply or an error indicator
(`none`). -/
def sendAttempt (ctx : SendCtx) (r : Option Reply) (c : Cmd) : Cmd :=
  let res := submitToServer ctx c
  if res.2.2 then processReply r res.1 else res.1

theorem decodeReply_ne_noReply (r : Option Reply) : decodeReply r ≠ .noReply := by
  cases r with
  | none => simp [decodeReply]
  | some v => cases v <;> simp [decodeReply]

/-- C1: for every Command and every send attempt, the status transitions
out of `NoReply` to a terminal status exactly once (ghost `resolveCount`
increments by exactly one and the final status is not `NoReply`), and
the user callback, if present, is invoked exactly once for that attempt
(ghost `callbackCount` increments by exactly one when a callback was
given and by zero otherwise) — covering the driver-exiting and
transmission-failure `SendError` paths as well as the normal
send-then-reply path. -/
theorem c1_status_and_callback_exactly_once (ctx : SendCtx) (r : Option Reply)
    (c : Cmd) (h : c.status = .noReply) :
    (sendAttempt ctx r c).status ≠ .noReply ∧
    (sendAttempt ctx r c).resolveCount = c.resolveCount + 1 ∧
    (sendAttempt ctx r c).callbackCount =
      c.callbackCount + (if c.hasCallback then 1 else 0) := by
  have hdec := decodeReply_ne_noReply r
  cases hte : ctx.toExit with
  | true =>
    cases hcb : c.hasCallback <;>
      simp [sendAttempt, submitToServer, processReply, setStatus, invoke,
        hte, h, hcb, decodeReply_ne_noReply]
  | false =>
    cases hp : c.payload with
    | args cmd =>
      cases hok : ctx.argvSendOk with
      | true =>
        cases hcb : c.hasCallback <;>
          simp [sendAttempt, submitToServer, processReply, setStatus, invoke,
            hte, h, hp, hok, hcb, hdec]
      | false =>
        cases hcb : c.hasCallback <;>
          simp [sendAttempt, submitToServer, processReply, setStatus, invoke,
            hte, h, hp, hok, hcb]
    | formatted t l =>
      cases hok : ctx.fmtSendOk with
      | true =>
        cases hcb : c.hasCallback <;>
          simp [sendAttempt, submitToServer, processReply, setStatus, invoke,
            hte, h, hp, hok, hcb, hdec]
      | false =>
        cases hcb : c.hasCallback <;>
          simp [sendAttempt, submitToServer, processReply, setStatus, invoke,
            hte, h, hp, hok, hcb]

/-- A concrete command used to witness C1: callback present, status
`NoReply`, plain argument-list payload. -/
def c1exCmd : Cmd :=
  { hasCallback := true
    callbackCount := 0
    status := .noReply
    resolveCount := 0
    pending := 0
    freeMemory := true
    payload := .args ["PING"]
    repeatSecs := 0
    afterSecs := 0 }

theorem c1_witness :
    c1exCmd.status = .noReply ∧
    ((sendAttempt ⟨true, true, true⟩ none c1exCmd).status ≠ .noReply ∧
     (sendAttempt ⟨true, true, true⟩ none c1exCmd).resolveCount =
       c1exCmd.resolveCount + 1 ∧
     (sendAttempt ⟨true, true, true⟩ none c1exCmd).callbackCount =
       c1exCmd.callbackCount + (if c1exCmd.hasCallback then 1 else 0)) :=
  ⟨rfl, c1_status_and_callback_exactly_once ⟨true, true, true⟩ none c1exCmd rfl⟩

/-- The connection states of `client.hpp` lines 141-147
(`NOT_YET_CONNECTED`, `CONNECTED`, `DISCONNECTED`, `CONNECT_ERROR`,
`DISCONNECT_ERROR`, `INIT_ERROR`). -/
inductive ConnState where
  | notYetConnected
  | connected
  | disconnected
  | connectError
  | disconnectError
  | initError
deriving DecidableEq

/-- The shared state of one `Redox` object that the claims observe:
`connect_state_`, `running_`, `exited_`, `to_exit_`, the submission queue
`command_queue_`, the reclamation queue `commands_to_free_`, and ghost
instrumentation — `broadcasts` counts `connect_waiter_.notify_all()`
calls, `created`/`freed` count actual `new Command` / `delete c`
executions, `graveyard` records each Command as it was at the moment it
was deleted, `watchersRegistered`/`enteredMainLoop` record whether the
background thread registered its wake-signal watchers and entered the
main `ev_run` loop. -/
structure RedoxState where
  connectState : ConnState
  broadcasts : Nat
  running : Bool
  exited : Bool
  toExit : Bool
  commandQueue : List Cmd
  freeQueue : List Cmd
  created : Nat
  freed : Nat
  graveyard : List Cmd
  watchersRegistered : Bool
  enteredMainLoop : Bool
deriving DecidableEq

/-- `Redox::setConnectState` (`client.cpp` lines 249-255): write the
state under `connect_lock_`, then `connect_waiter_.notify_all()` —
the ghost `broadcasts` counter records the broadcast. -/
def setConnectStateM (s : RedoxState) (v : ConnState) : RedoxState :=
  { s with connectState := v, broadcasts := s.broadcasts + 1 }

/-- `Redox::stop` (`client.cpp` lines 124-128): set `to_exit_` and signal
the stop watcher. -/
def stopM (s : RedoxState) : RedoxState :=
  { s with toExit := true }

/-- A freshly constructed `Command<ReplyT>` as allocated by
`createCommand`'s `new Command(...)`.  The initial reply status is
`NoReply` (spec section 3, and `createCommand` itself overwrites it
immediately on both branches). -/
def newCmd (hasCallback : Bool) (p : Payload) (repeatSecs afterSecs : Rat)
    (freeMemory : Bool) : Cmd :=
  { hasCallback := hasCallback
    callbackCount := 0
    status := .noReply
    resolveCount := 0
    pending := 0
    freeMemory := freeMemory
    payload := p
    repeatSecs := repeatSecs
    afterSecs := afterSecs }

/-- `Redox::createCommand` (`client.hpp` lines 478-540, both overloads
have identical control flow): allocate the Command (`created` counts the
allocation; the source's `commands_created_++` is commented out), then
under `running_lock_` test `running_` — if not running, set
`SEND_ERROR`, `invoke()` the callback and return without queuing;
otherwise set `NO_REPLY`, push onto `command_queue_` under
`queue_guard_` and signal `watcher_command_`.  Returns the new state,
the Command as returned to the caller, and whether it was queued.
Neither branch waits on any condition variable. -/
def createCommandModel (s : RedoxState) (hasCallback : Bool) (p : Payload)
    (repeatSecs afterSecs : Rat) (freeMemory : Bool) :
    RedoxState × Cmd × Bool :=
  let c := newCmd hasCallback p repeatSecs afterSecs freeMemory
  let s := { s with created := s.created + 1 }
  if s.running = false then
    (s, invoke (setStatus c .sendError), false)
  else
    let c := setStatus c .noReply
    ({ s with commandQueue := s.commandQueue ++ [c] }, c, true)

/-- The events that act on a `RedoxState`.  Connection events carry the
guard under which the external collaborator can deliver them (spec
section 4.3 (a): hiredis reports the connect outcome exactly once after
`redisAsyncConnect`, and the disconnect outcome only after a successful
connect). -/
inductive Ev where
  | connectedOk
  | connectedErr
  | initFail
  | disconnectedOk
  | disconnectedErr
  | bgConnectOutcome
  | stop
  | submit (hasCallback : Bool) (p : Payload) (repeatSecs afterSecs : Rat)
      (freeMemory : Bool)
  | drainAtStop
  | freeQueued
deriving DecidableEq

/-- One step of the system.  Each arm is translated from the source:
`connectedOk`/`connectedErr` from `Redox::connectedCallback`
(`client.cpp` lines 149-167), guarded by the collaborator contract that
the connect callback fires once from the initial state;
`initFail` from `initEv`/`initHiredis` failures (`client.cpp` lines
187-230), which run before the background thread starts;
`disconnectedOk`/`disconnectedErr` from `Redox::disconnectedCallback`
(`client.cpp` lines 169-185), which also calls `stop()`, guarded by the
contract that hiredis reports a disconnect only after a successful
connect; `bgConnectOutcome` from the connect-outcome block of
`Redox::runEventLoop` (`client.cpp` lines 281-325): once the state has
left `NOT_YET_CONNECTED`, either exit without registering watchers (non-
`CONNECTED` outcome) or register the three watchers, mark running and
enter the main loop; `stop` from `Redox::stop`; `submit` from
`createCommand`; `drainAtStop` from `Redox::freeAllCommands`
(`client.cpp` lines 386-403), run by `runEventLoop` after the stop
signal: it pops every Command of `command_queue_` and deletes it —
without touching its status or callback — and leaves
`commands_to_free_` alone; `freeQueued` from `Redox::freeQueuedCommands`
(`client.cpp` lines 371-384). -/
def step (s : RedoxState) (e : Ev) : RedoxState :=
  match e with
  | .connectedOk =>
    if s.connectState = .notYetConnected then setConnectStateM s .connected else s
  | .connectedErr =>
    if s.connectState = .notYetConnected then setConnectStateM s .connectError else s
  | .initFail =>
    if s.connectState = .notYetConnected then setConnectStateM s .initError else s
  | .disconnectedOk =>
    if s.connectState = .connected then stopM (setConnectStateM s .disconnected) else s
  | .disconnectedErr =>
    if s.connectState = .connected then stopM (setConnectStateM s .disconnectError) else s
  | .bgConnectOutcome =>
    if s.connectState ≠ .notYetConnected ∧ s.running = false ∧ s.exited = false then
      if s.connectState = .connected then
        { s with watchersRegistered := true, running := true, enteredMainLoop := true }
      else
        { s with exited := true, running := false }
    else s
  | .stop => stopM s
  | .submit hasCallback p repeatSecs afterSecs freeMemory =>
    (createCommandModel s hasCallback p repeatSecs afterSecs freeMemory).1
  | .drainAtStop =>
    if s.toExit = true then
      { s with
        graveyard := s.graveyard ++ s.commandQueue
        freed := s.freed + s.commandQueue.length
        commandQueue := [] }
    else s
  | .freeQueued =>
    { s with
      graveyard := s.graveyard ++ s.freeQueue
      freed := s.freed + s.freeQueue.length
      freeQueue := [] }

/-- Run a list of events from a state. -/
def runEvs (s : RedoxState) (evs : List Ev) : RedoxState :=
  evs.foldl step s

/-- The state of a freshly constructed `Redox` object (`client.hpp`
member initializers). -/
def initState : RedoxState :=
  { connectState := .notYetConnected
    broadcasts := 0
    running := false
    exited := false
    toExit := false
    commandQueue := []
    freeQueue := []
    created := 0
    freed := 0
    graveyard := []
    watchersRegistered := false
    enteredMainLoop := false }

/-- Environment of one `Redox::connect` call: success of each external
setup step (`ev_loop_new` non-null, hiredis context without `err`,
`redisLibevAttach`, `redisAsyncSetConnectCallback`,
`redisAsyncSetDisconnectCallback`), and whether the server answered the
connect (the outcome later delivered to `connectedCallback`). -/
structure ConnectEnv where
  evLoopOk : Bool
  ctxOk : Bool
  attachOk : Bool
  setConnectCbOk : Bool
  setDisconnectCbOk : Bool
  serverReachable : Bool
deriving DecidableEq

/-- `Redox::connect` (`client.cpp` lines 57-87) with `initEv` (lines
187-197) and `initHiredis` (lines 199-230) inlined in source order.
Each failing setup step sets `INIT_ERROR` and returns `false` before
the event-loop thread is started.  Otherwise the caller blocks on
`running_waiter_` until `running_` is set (connected outcome) or
`connect_state_ == CONNECT_ERROR`, and returns
`getConnectState() == CONNECTED`.  The result is the returned `bool`
paired with the connection state observed at return. -/
def connectModel (e : ConnectEnv) : Bool × ConnState :=
  if e.evLoopOk = false then (false, .initError)
  else if e.ctxOk = false then (false, .initError)
  else if e.attachOk = false then (false, .initError)
  else if e.setConnectCbOk = false then (false, .initError)
  else if e.setDisconnectCbOk = false then (false, .initError)
  else if e.serverReachable then (true, .connected)
  else (false, .connectError)

/-- C3: `connect` blocks until the outcome is known and returns `true`
iff the connection state it observes at return is `Connected`; every
initialization failure (event-loop or hiredis setup) returns `false`
(with state `InitError`). -/
theorem c3_connect_iff_connected (e : ConnectEnv) :
    ((connectModel e).1 = true ↔ (connectModel e).2 = .connected) ∧
    ((e.evLoopOk = false ∨ e.ctxOk = false ∨ e.attachOk = false ∨
      e.setConnectCbOk = false ∨ e.setDisconnectCbOk = false) →
      (connectModel e).1 = false ∧ (connectModel e).2 = .initError) := by
  rcases e with ⟨a, b, c, d, f, g⟩
  cases a <;> cases b <;> cases c <;> cases d <;> cases f <;> cases g <;>
    simp [connectModel]

theorem c3_witness :
    (((connectModel ⟨false, true, true, true, true, true⟩).1 = true ↔
      (connectModel ⟨false, true, true, true, true, true⟩).2 = .connected) ∧
     (connectModel ⟨false, true, true, true, true, true⟩).1 = false ∧
     (connectModel ⟨false, true, true, true, true, true⟩).2 = .initError) ∧
    ((connectModel ⟨true, true, true, true, true, true⟩).1 = true ↔
      (connectModel ⟨true, true, true, true, true, true⟩).2 = .connected) :=
  ⟨⟨(c3_connect_iff_connected ⟨false, true, true, true, true, true⟩).1,
    (c3_connect_iff_connected ⟨false, true, true, true, true, true⟩).2
      (Or.inl rfl)⟩,
   (c3_connect_iff_connected ⟨true, true, true, true, true, true⟩).1⟩

/-- The event trace leading to the counterexample for C2: the server
connect succeeds, the background thread marks itself running, then the
server disconnects cleanly (so `connect_state_` becomes `DISCONNECTED`
and `stop()` is signalled) while `running_` is still `true` — the window
between `disconnectedCallback` and the event loop actually exiting. -/
def c2Trace : List Ev := [.connectedOk, .bgConnectOutcome, .disconnectedOk]

/-- The state reached by `c2Trace`. -/
def c2State : RedoxState := runEvs initState c2Trace

/-- C2 counterexample: in the reachable state `c2State` the connection
state is `Disconnected` (≠ `Connected`), yet a submission is accepted:
`createCommand` tests only `running_`, so the Command is created with
status `NoReply` (not `SendError`), its callback is not invoked, and it
IS pushed onto the submission queue — refuting the claim that every
submission made while the state is not `Connected` yields an immediate
`SendError` without queuing. -/
theorem c2_counterexample :
    c2State.connectState = .disconnected ∧
    c2State.connectState ≠ .connected ∧
    c2State.running = true ∧
    (createCommandModel c2State true (.args ["GET", "k"]) 0 0 true).2.1.status
      = .noReply ∧
    (createCommandModel c2State true (.args ["GET", "k"]) 0 0 true).2.1.callbackCount
      = 0 ∧
    (createCommandModel c2State true (.args ["GET", "k"]) 0 0 true).2.2 = true ∧
    (createCommandModel c2State true (.args ["GET", "k"]) 0 0 true).1.commandQueue.length
      = 1 := by
  decide

/-- C2 amended: the gate is the `running_` flag, not the connection
state.  For every submission made while the event loop is not marked
running, the Command is created with status `SendError`, its user
callback is invoked exactly once immediately (on the submitting thread),
it is never pushed onto the submission queue, and the call completes
without waiting on any condition (the model function is total and
performs no wait). -/
theorem c2_amended_not_running_send_error (s : RedoxState) (hasCb : Bool)
    (p : Payload) (repeatSecs afterSecs : Rat) (freeMemory : Bool)
    (h : s.running = false) :
    (createCommandModel s hasCb p repeatSecs afterSecs freeMemory).2.1.status
      = .sendError ∧
    (createCommandModel s hasCb p repeatSecs afterSecs freeMemory).2.1.callbackCount
      = (if hasCb then 1 else 0) ∧
    (createCommandModel s hasCb p repeatSecs afterSecs freeMemory).2.2 = false ∧
    (createCommandModel s hasCb p repeatSecs afterSecs freeMemory).1.commandQueue
      = s.commandQueue := by
  cases hasCb <;>
    simp [createCommandModel, newCmd, setStatus, invoke, h]

theorem c2_amended_witness :
    initState.running = false ∧
    ((createCommandModel initState true (.args ["SET", "k", "v"]) 0 0 true).2.1.status
       = .sendError ∧
     (createCommandModel initState true (.args ["SET", "k", "v"]) 0 0 true).2.1.callbackCount
       = (if true then 1 else 0) ∧
     (createCommandModel initState true (.args ["SET", "k", "v"]) 0 0 true).2.2 = false ∧
     (createCommandModel initState true (.args ["SET", "k", "v"]) 0 0 true).1.commandQueue
       = initState.commandQueue) :=
  ⟨rfl, c2_amended_not_running_send_error initState true (.args ["SET", "k", "v"])
    0 0 true rfl⟩

/-- `Redox::commandSync` (`client.hpp` lines 580-590): create the
Command with no callback, `repeat = 0`, `after = 0`,
`free_memory = false`; call `wait()` only if `status()` is still
`NO_REPLY`; return the Command to the caller.  The third component
records whether `wait()` was called. -/
def commandSyncModel (s : RedoxState) (p : Payload) : RedoxState × Cmd × Bool :=
  let r := createCommandModel s false p 0 0 false
  (r.1, r.2.1, decide (r.2.1.status = .noReply))

/-- C10: `commandSync` calls `wait()` exactly when the Command's status
is still `NoReply` after creation; in particular a Command rejected at
submission time (loop not running) has status `SendError`, so it is
returned to the caller immediately and the caller never blocks on it. -/
theorem c10_sync_waits_only_on_noReply (s : RedoxState) (p : Payload) :
    ((commandSyncModel s p).2.2 = true ↔
      (commandSyncModel s p).2.1.status = .noReply) ∧
    (s.running = false →
      (commandSyncModel s p).2.2 = false ∧
      (commandSyncModel s p).2.1.status = .sendError) := by
  constructor
  · simp [commandSyncModel]
  · intro h
    simp [commandSyncModel, createCommandModel, newCmd, setStatus, invoke, h]

theorem c10_witness :
    initState.running = false ∧
    ((commandSyncModel initState (.args ["GET", "k"])).2.2 = false ∧
     (commandSyncModel initState (.args ["GET", "k"])).2.1.status = .sendError) ∧
    ((commandSyncModel initState (.args ["GET", "k"])).2.2 = true ↔
      (commandSyncModel initState (.args ["GET", "k"])).2.1.status = .noReply) :=
  ⟨rfl,
   (c10_sync_waits_only_on_noReply initState (.args ["GET", "k"])).2 rfl,
   (c10_sync_waits_only_on_noReply initState (.args ["GET", "k"])).1⟩

/-- The failing trace for C4: one fire-and-forget command is submitted
before the connection exists (`running_` is `false`, so `createCommand`
allocates the Command, resolves it to `SendError`, invokes the callback
and returns it without queuing it anywhere), then `stop()` is called and
the shutdown drain and reclamation passes both run. -/
def c4Trace : List Ev :=
  [.submit true (.args ["PING"]) 0 0 true, .stop, .drainAtStop, .freeQueued]

/-- C4 fails on the code: after the full shutdown sequence the count of
Commands created is `1` and the count of Commands freed is `0` — the
Command allocated on `createCommand`'s `SendError` path is never pushed
onto any queue and no code path ever deletes it, contradicting both the
claim and the header's own documentation that the Command memory "is
automatically freed when the callback returns" (`client.hpp` lines
208-212).  The code's leak diagnostic itself is inoperative: the
`commands_created_++` increment is commented out (`client.hpp` line 483)
while `freeAllCommands` still adds to `commands_deleted_`
(`client.cpp` line 400). -/
theorem c4_leak_after_stop_wait :
    (runEvs initState c4Trace).created = 1 ∧
    (runEvs initState c4Trace).freed = 0 ∧
    (runEvs initState c4Trace).commandQueue = [] ∧
    (runEvs initState c4Trace).freeQueue = [] := by
  decide

/-- The failing trace for C5: connect succeeds, the loop runs, one
command with a callback is submitted and sits in the submission queue,
then `stop()` arrives and the shutdown drain (`freeAllCommands`) runs
before the queue was processed. -/
def c5Trace : List Ev :=
  [.connectedOk, .bgConnectOutcome, .submit true (.args ["GET", "k"]) 0 0 true,
   .stop, .drainAtStop]

/-- C5 fails on the code: `freeAllCommands` (`client.cpp` lines 386-403)
pops each Command of the submission queue, calls `freeReply_t()` and
`delete`s it — it never writes `SEND_ERROR` into the Command and never
invokes its callback.  Evaluating the drain: the single queued Command
is freed (freed count 1) but reaches the graveyard with status still
`NoReply` and callback count `0`, contradicting the claim (and the
header's guarantee, `client.hpp` lines 207-212, that the callback is
invoked exactly once). -/
theorem c5_drain_frees_without_callback :
    (runEvs initState c5Trace).freed = 1 ∧
    (runEvs initState c5Trace).graveyard.map Cmd.status = [.noReply] ∧
    (runEvs initState c5Trace).graveyard.map Cmd.callbackCount = [0] ∧
    (runEvs initState c5Trace).graveyard.map Cmd.hasCallback = [true] := by
  decide

/-- C8: when the connect outcome observed by the background thread
(`runEventLoop`, `client.cpp` lines 286-299) is anything other than
`Connected`, the thread marks itself exited and not running and returns:
the wake-signal watchers are never registered and the main event-loop
iteration is never entered.  The blocked `connect()` caller then returns
`false` with state `ConnectError` (`connectModel` on a reachable-server
environment whose connect outcome is an error). -/
theorem c8_bg_exits_without_running (s : RedoxState)
    (h1 : s.connectState ≠ .notYetConnected)
    (h2 : s.connectState ≠ .connected)
    (h3 : s.running = false) (h4 : s.exited = false) :
    (step s .bgConnectOutcome).exited = true ∧
    (step s .bgConnectOutcome).running = false ∧
    (step s .bgConnectOutcome).watchersRegistered = s.watchersRegistered ∧
    (step s .bgConnectOutcome).enteredMainLoop = s.enteredMainLoop ∧
    connectModel ⟨true, true, true, true, true, false⟩ = (false, .connectError) := by
  refine ⟨?_, ?_, ?_, ?_, rfl⟩ <;>
    simp [step, h1, h2, h3, h4]

/-- The state in which the background thread observes a failed connect:
`connectedCallback` ran with an error status. -/
def c8State : RedoxState := runEvs initState [.connectedErr]

theorem c8_witness :
    (c8State.connectState ≠ .notYetConnected ∧
     c8State.connectState ≠ .connected ∧
     c8State.running = false ∧ c8State.exited = false) ∧
    ((step c8State .bgConnectOutcome).exited = true ∧
     (step c8State .bgConnectOutcome).running = false ∧
     (step c8State .bgConnectOutcome).watchersRegistered = c8State.watchersRegistered ∧
     (step c8State .bgConnectOutcome).enteredMainLoop = c8State.enteredMainLoop ∧
     connectModel ⟨true, true, true, true, true, false⟩ = (false, .connectError)) :=
  ⟨by decide,
   c8_bg_exits_without_running c8State (by decide) (by decide) (by decide) (by decide)⟩

/-- The edges of the connection-state graph claimed by the spec:
`NotConnected → {Connected, ConnectError, InitError}` and
`Connected → {Disconnected, DisconnectError}`. -/
def allowedEdge : ConnState → ConnState → Bool
  | .notYetConnected, .connected => true
  | .notYetConnected, .connectError => true
  | .notYetConnected, .initError => true
  | .connected, .disconnected => true
  | .connected, .disconnectError => true
  | _, _ => false

/-- Topological rank of the connection-state graph: the start state,
then `Connected`, then the four terminal states. -/
def connRank : ConnState → Nat
  | .notYetConnected => 0
  | .connected => 1
  | _ => 2

theorem step_connect_cases (s : RedoxState) (e : Ev) :
    (step s e).connectState = s.connectState ∨
    (allowedEdge s.connectState (step s e).connectState = true ∧
     connRank s.connectState < connRank (step s e).connectState ∧
     (step s e).broadcasts = s.broadcasts + 1) := by
  cases e with
  | connectedOk =>
    by_cases hc : s.connectState = .notYetConnected
    · right
      simp [step, hc, setConnectStateM, allowedEdge, connRank]
    · left
      simp [step, hc]
  | connectedErr =>
    by_cases hc : s.connectState = .notYetConnected
    · right
      simp [step, hc, setConnectStateM, allowedEdge, connRank]
    · left
      simp [step, hc]
  | initFail =>
    by_cases hc : s.connectState = .notYetConnected
    · right
      simp [step, hc, setConnectStateM, allowedEdge, connRank]
    · left
      simp [step, hc]
  | disconnectedOk =>
    by_cases hc : s.connectState = .connected
    · right
      simp [step, hc, setConnectStateM, stopM, allowedEdge, connRank]
    · left
      simp [step, hc]
  | disconnectedErr =>
    by_cases hc : s.connectState = .connected
    · right
      simp [step, hc, setConnectStateM, stopM, allowedEdge, connRank]
    · left
      simp [step, hc]
  | bgConnectOutcome =>
    left
    simp only [step]
    split
    · split <;> rfl
    · rfl
  | stop =>
    left
    rfl
  | submit hasCb p repeatSecs afterSecs freeMemory =>
    left
    simp only [step, createCommandModel]
    split <;> rfl
  | drainAtStop =>
    left
    simp only [step]
    split <;> rfl
  | freeQueued =>
    left
    rfl

theorem runEvs_rank_mono (evs : List Ev) :
    ∀ s : RedoxState,
      connRank s.connectState ≤ connRank (runEvs s evs).connectState := by
  induction evs with
  | nil => intro s; exact Nat.le_refl _
  | cons e evs ih =>
    intro s
    have hstep := step_connect_cases s e
    have htail := ih (step s e)
    have hrun : runEvs s (e :: evs) = runEvs (step s e) evs := rfl
    rw [hrun]
    rcases hstep with heq | ⟨_, hlt, _⟩
    · calc connRank s.connectState = connRank (step s e).connectState := by rw [heq]
        _ ≤ _ := htail
    · exact Nat.le_trans (Nat.le_of_lt hlt) htail

theorem runEvs_changed_strict (evs : List Ev) :
    ∀ s : RedoxState,
      (runEvs s evs).connectState ≠ s.connectState →
      connRank s.connectState < connRank (runEvs s evs).connectState := by
  induction evs with
  | nil => intro s h; exact absurd rfl h
  | cons e evs ih =>
    intro s hne
    have hrun : runEvs s (e :: evs) = runEvs (step s e) evs := rfl
    rw [hrun] at hne ⊢
    rcases step_connect_cases s e with heq | ⟨_, hlt, _⟩
    · have hne2 : (runEvs (step s e) evs).connectState ≠ (step s e).connectState := by
        rw [heq]; exact hne
      have := ih (step s e) hne2
      rw [heq] at this
      exact this
    · exact Nat.lt_of_lt_of_le hlt (runEvs_rank_mono evs (step s e))

/-- C7: the connection state only moves along the edges
`NotConnected → {Connected, ConnectError, InitError}` and
`Connected → {Disconnected, DisconnectError}`: (i) every step of the
system either leaves `connect_state_` unchanged or follows an allowed
edge, and every step that changes it performs exactly one broadcast
(`connect_waiter_.notify_all()` in `setConnectState`); (ii) no state is
revisited — once a run of events has moved the connection state away
from its value at some point, no further run of events ever brings it
back to that value. -/
theorem c7_state_graph_forward_only :
    (∀ (s : RedoxState) (e : Ev),
      (step s e).connectState ≠ s.connectState →
      allowedEdge s.connectState ((step s e).connectState) = true ∧
      (step s e).broadcasts = s.broadcasts + 1) ∧
    (∀ (s : RedoxState) (evs₁ evs₂ : List Ev),
      (runEvs s evs₁).connectState ≠ s.connectState →
      (runEvs (runEvs s evs₁) evs₂).connectState ≠ s.connectState) := by
  constructor
  · intro s e hne
    rcases step_connect_cases s e with heq | ⟨hedge, _, hbc⟩
    · exact absurd heq hne
    · exact ⟨hedge, hbc⟩
  · intro s evs₁ evs₂ hne heq
    have h1 : connRank s.connectState < connRank (runEvs s evs₁).connectState :=
      runEvs_changed_strict evs₁ s hne
    have h2 : connRank (runEvs s evs₁).connectState ≤
        connRank (runEvs (runEvs s evs₁) evs₂).connectState :=
      runEvs_rank_mono evs₂ (runEvs s evs₁)
    rw [heq] at h2
    exact absurd (Nat.lt_of_lt_of_le h1 h2) (Nat.lt_irrefl _)

theorem c7_witness :
    ((step initState .connectedOk).connectState ≠ initState.connectState ∧
     allowedEdge initState.connectState ((step initState .connectedOk).connectState)
       = true ∧
     (step initState .connectedOk).broadcasts = initState.broadcasts + 1) ∧
    ((runEvs initState [.connectedOk]).connectState ≠ initState.connectState ∧
     (runEvs (runEvs initState [.connectedOk]) [.disconnectedOk]).connectState
       ≠ initState.connectState) :=
  ⟨⟨by decide,
    c7_state_graph_forward_only.1 initState .connectedOk (by decide)⟩,
   ⟨by decide,
    c7_state_graph_forward_only.2 initState [.connectedOk] [.disconnectedOk]
      (by decide)⟩⟩

/-- The observable events of one run of the background thread's
submission-queue drain, with respect to the submission-queue lock
`queue_guard_`: acquiring and releasing the lock, a call of
`submitToServer` (the send into the protocol layer), and the arming of
a delay/repeat timer. -/
inductive LockEv where
  | acquire
  | send
  | armTimer
  | release
deriving DecidableEq

/-- `Redox::processQueuedCommand` (`client.hpp` lines 655-670) as the
events it performs for one Command: zero delay and zero repeat send
immediately (`submitToServer`), otherwise an `ev_timer` is initialized
and started whose expiry performs the send. -/
def processQueuedCommandEvents (c : Cmd) : List LockEv :=
  if c.repeatSecs = 0 ∧ c.afterSecs = 0 then [.send] else [.armTimer]

/-- `Redox::processQueuedCommands` (`client.cpp` lines 357-369) as its
event trace: the `lock_guard` on `queue_guard_` is acquired at function
entry and released when the function returns, and in between the loop
pops every queued Command and calls `processQueuedCommand_t()` on it —
inside the scope of the guard. -/
def processQueuedCommandsEvents (q : List Cmd) : List LockEv :=
  .acquire :: ((q.map processQueuedCommandEvents).flatten ++ [.release])

/-- Number of `send` events in a trace. -/
def countSends : List LockEv → Nat
  | [] => 0
  | .send :: rest => countSends rest + 1
  | _ :: rest => countSends rest

/-- Number of `send` events that occur while the lock is held, tracking
the current hold depth. -/
def countSendsHeld : Nat → List LockEv → Nat
  | _, [] => 0
  | held, .acquire :: rest => countSendsHeld (held + 1) rest
  | held, .release :: rest => countSendsHeld (held - 1) rest
  | held, .send :: rest =>
    (if 0 < held then 1 else 0) + countSendsHeld held rest
  | held, .armTimer :: rest => countSendsHeld held rest

/-- A concrete immediate-send Command (zero delay, zero repeat) sitting
in the submission queue. -/
def c9Cmd : Cmd := newCmd true (.args ["GET", "k"]) 0 0 true

/-- C9 counterexample: the claim says no send into the protocol layer
happens while the submission-queue lock is held — i.e. for every queue
the drain trace has `countSendsHeld 0 _ = 0`.  For the one-element queue
holding an immediate Command the drain trace is
`[acquire, send, release]`: the send happens strictly inside the
lock_guard's scope, so the count is `1`, refuting the claim. -/
theorem c9_counterexample :
    processQueuedCommandsEvents [c9Cmd] = [.acquire, .send, .release] ∧
    ¬ countSendsHeld 0 (processQueuedCommandsEvents [c9Cmd]) = 0 := by
  decide

theorem countSendsHeld_body (q : List Cmd) :
    ∀ n : Nat,
      countSendsHeld (n + 1)
          ((q.map processQueuedCommandEvents).flatten ++ [.release])
        = countSends ((q.map processQueuedCommandEvents).flatten) := by
  induction q with
  | nil => intro n; rfl
  | cons c q ih =>
    intro n
    by_cases hc : c.repeatSecs = 0 ∧ c.afterSecs = 0
    · simp only [List.map_cons, List.flatten, processQueuedCommandEvents, hc,
        if_pos hc, List.cons_append, List.singleton_append]
      show (if 0 < n + 1 then 1 else 0) +
          countSendsHeld (n + 1) ((q.map processQueuedCommandEvents).flatten ++ [.release])
        = countSends ((q.map processQueuedCommandEvents).flatten) + 1
      rw [if_pos (Nat.succ_pos n), ih n, Nat.add_comm]
    · simp only [List.map_cons, List.flatten, processQueuedCommandEvents,
        if_neg hc, List.cons_append, List.singleton_append]
      show countSendsHeld (n + 1) ((q.map processQueuedCommandEvents).flatten ++ [.release])
        = countSends ((q.map processQueuedCommandEvents).flatten)
      exact ih n

theorem countSends_body (q : List Cmd) :
    countSends ((q.map processQueuedCommandEvents).flatten ++ [.release])
      = countSends ((q.map processQueuedCommandEvents).flatten) := by
  induction q with
  | nil => rfl
  | cons c q ih =>
    by_cases hc : c.repeatSecs = 0 ∧ c.afterSecs = 0 <;>
      simp only [List.map_cons, List.flatten, processQueuedCommandEvents, hc,
        if_pos, if_neg, List.cons_append, List.singleton_append, not_false_iff] <;>
      simp [countSends, ih]

/-- C9 amended: the submission-queue lock is held for the entire drain —
`processQueuedCommands` acquires `queue_guard_` at entry, releases it
only at return, and every send performed during the drain (every
zero-delay, zero-repeat Command of the queue) happens while the lock is
held: in the drain trace of any queue, the number of sends performed
under the lock equals the total number of sends. -/
theorem c9_amended_lock_held_across_sends (q : List Cmd) :
    countSendsHeld 0 (processQueuedCommandsEvents q)
      = countSends (processQueuedCommandsEvents q) := by
  show countSendsHeld 1 ((q.map processQueuedCommandEvents).flatten ++ [.release])
    = countSends ((q.map processQueuedCommandEvents).flatten ++ [.release])
  rw [countSends_body q]
  exact countSendsHeld_body q 0

/-- The shared state of one formatted buffer together with all its live
holders.  `views` lists, for each live holder, the `(target, len)` pair
it observes; `cnt` is the value of the shared `**cnt` counter cell;
`frees` is the ghost count of `free(target)` executions.  Both
implementations — `format_command` (`src/format.cpp` lines 40-64) and
`formated_string` (the `formated_string` translation unit, lines 35-61)
— share this abstract behaviour: their destructors differ only in the
nullity check on the shared cell (`if (cnt)` versus `if (*cnt)`), and
both pointers are non-null for every live holder. -/
structure BufState where
  views : List (Nat × Int)
  cnt : Nat
  frees : Nat
deriving DecidableEq

/-- An operation on a formatted buffer's holder set: copy-construct a
new holder from holder `i`, or destroy holder `i`. -/
inductive BufOp where
  | copy (i : Nat)
  | destroy (i : Nat)
deriving DecidableEq

/-- One copy-construction or destruction, from the source.  The copy
constructor copies `target`, `len`, `format` and the shared `cnt`
pointer, then does `(**cnt)++`.  The destructor: if `**cnt` is nonzero,
decrement it and return without freeing; otherwise `free(target)` and
delete the counter cells (the buffer release, counted by `frees`).
Operations naming a holder that does not exist are impossible
(`none`). -/
def bufStep (s : BufState) : BufOp → Option BufState
  | .copy i =>
    match s.views[i]? with
    | some v => some { s with views := s.views ++ [v], cnt := s.cnt + 1 }
    | none => none
  | .destroy i =>
    match s.views[i]? with
    | some _ =>
      if s.cnt ≠ 0 then
        some { s with views := s.views.eraseIdx i, cnt := s.cnt - 1 }
      else
        some { views := s.views.eraseIdx i, cnt := s.cnt, frees := s.frees + 1 }
    | none => none

/-- The buffer as produced by `FormatCommand` (`src/format.cpp` lines
25-38): a single holder, shared counter cell initialized to `0`
(`*cnt = new int{0}` in the constructor), nothing freed yet. -/
def bufInit (t : Nat) (l : Int) : BufState :=
  { views := [(t, l)], cnt := 0, frees := 0 }

/-- Run a sequence of copy/destroy operations. -/
def bufRun : BufState → List BufOp → Option BufState
  | s, [] => some s
  | s, op :: ops =>
    match bufStep s op with
    | some s2 => bufRun s2 ops
    | none => none

/-- The sharing invariant: while the buffer is unreleased, the counter
cell holds exactly (number of live holders − 1), and every holder
observes the original `(target, len)`; once released, no holder is left
and exactly one release has happened. -/
def bufInv (t : Nat) (l : Int) (s : BufState) : Prop :=
  (s.frees = 0 ∧ s.views.length = s.cnt + 1 ∧ ∀ v ∈ s.views, v = (t, l)) ∨
  (s.frees = 1 ∧ s.views = [])

theorem bufStep_preserves_inv {t : Nat} {l : Int} {s s2 : BufState} {op : BufOp}
    (hinv : bufInv t l s) (hstep : bufStep s op = some s2) : bufInv t l s2 := by
  cases op with
  | copy i =>
    cases hv : s.views[i]? with
    | none => simp [bufStep, hv] at hstep
    | some v =>
      simp only [bufStep, hv] at hstep
      injection hstep with hstep
      subst hstep
      rcases hinv with ⟨hf, hlen, hall⟩ | ⟨hf, hnil⟩
      · left
        refine ⟨hf, ?_, ?_⟩
        · simp only [List.length_append, List.length_cons, List.length_nil]
          omega
        · intro w hw
          simp only [List.mem_append, List.mem_singleton] at hw
          rcases hw with hw | hw
          · exact hall w hw
          · rw [hw]
            obtain ⟨hlt2, he2⟩ := List.getElem?_eq_some.mp hv
            exact hall v (he2 ▸ List.getElem_mem hlt2)
      · rw [hnil] at hv
        simp at hv
  | destroy i =>
    cases hv : s.views[i]? with
    | none => simp [bufStep, hv] at hstep
    | some v =>
      have hlt : i < s.views.length := (List.getElem?_eq_some.mp hv).1
      rcases hinv with ⟨hf, hlen, hall⟩ | ⟨hf, hnil⟩
      · simp only [bufStep, hv] at hstep
        by_cases hc : s.cnt ≠ 0
        · rw [if_pos hc] at hstep
          injection hstep with hstep
          subst hstep
          left
          refine ⟨hf, ?_, ?_⟩
          · simp only
            have := List.length_eraseIdx_add_one hlt
            omega
          · intro w hw
            simp only at hw
            exact hall w ((List.eraseIdx_sublist s.views i).mem hw)
        · rw [if_neg hc] at hstep
          injection hstep with hstep
          subst hstep
          right
          push_neg at hc
          refine ⟨by simp [hf], ?_⟩
          simp only
          have h2 := List.length_eraseIdx_add_one hlt
          have h0 : (s.views.eraseIdx i).length = 0 := by omega
          exact List.length_eq_zero.mp h0
      · rw [hnil] at hv
        simp at hv

theorem bufRun_preserves_inv {t : Nat} {l : Int} (ops : List BufOp) :
    ∀ s s2 : BufState, bufInv t l s → bufRun s ops = some s2 → bufInv t l s2 := by
  induction ops with
  | nil =>
    intro s s2 hinv hrun
    simp only [bufRun, Option.some.injEq] at hrun
    rw [← hrun]
    exact hinv
  | cons op ops ih =>
    intro s s2 hinv hrun
    simp only [bufRun] at hrun
    cases hs : bufStep s op with
    | none => rw [hs] at hrun; simp at hrun
    | some smid =>
      rw [hs] at hrun
      exact ih smid s2 (bufStep_preserves_inv hinv hs) hrun

/-- C6: for a formatted buffer and every sequence of copies and
destructions of its holders, the underlying byte buffer is released at
most once, never while any holder is still alive, exactly once when the
last holder has been destroyed — and every live holder observes the
same `target` pointer and the same `len` as the original. -/
theorem c6_buffer_released_exactly_once (t : Nat) (l : Int) (ops : List BufOp)
    (s : BufState) (h : bufRun (bufInit t l) ops = some s) :
    s.frees ≤ 1 ∧
    (s.views ≠ [] → s.frees = 0) ∧
    (s.views = [] → s.frees = 1) ∧
    (∀ v ∈ s.views, v = (t, l)) := by
  have hinv0 : bufInv t l (bufInit t l) := by
    left
    refine ⟨rfl, rfl, ?_⟩
    intro v hv
    simp only [bufInit, List.mem_singleton] at hv
    exact hv
  have hinv := bufRun_preserves_inv ops (bufInit t l) s hinv0 h
  rcases hinv with ⟨hf, hlen, hall⟩ | ⟨hf, hnil⟩
  · refine ⟨by omega, fun _ => hf, ?_, hall⟩
    intro hempty
    rw [hempty] at hlen
    simp at hlen
  · refine ⟨by omega, ?_, fun _ => hf, ?_⟩
    · intro hne
      exact absurd hnil hne
    · intro v hv
      rw [hnil] at hv
      simp at hv

theorem c6_witness :
    bufRun (bufInit 7 3) [.copy 0, .destroy 0, .destroy 0]
      = some ⟨[], 0, 1⟩ ∧
    ((⟨[], 0, 1⟩ : BufState).frees ≤ 1 ∧
     ((⟨[], 0, 1⟩ : BufState).views ≠ [] → (⟨[], 0, 1⟩ : BufState).frees = 0) ∧
     ((⟨[], 0, 1⟩ : BufState).views = [] → (⟨[], 0, 1⟩ : BufState).frees = 1) ∧
     (∀ v ∈ (⟨[], 0, 1⟩ : BufState).views, v = (7, 3))) :=
  ⟨by decide,
   c6_buffer_released_exactly_once 7 3 [.copy 0, .destroy 0, .destroy 0]
     ⟨[], 0, 1⟩ (by decide)⟩

theorem c9_amended_witness :
    countSendsHeld 0 (processQueuedCommandsEvents [c9Cmd])
      = countSends (processQueuedCommandsEvents [c9Cmd]) :=
  c9_amended_lock_held_across_sends [c9Cmd]
